import Mathlib

/-!
Shallow embedding of the batgw battery gateway (src/batgw.c, src/battery/b_mg4.c,
src/inverter/i_byd_can.c) and proofs about its safety supervisor, envelope
computation, pack-state accessors, telemetry key/value plane and inverter driver.

C `unsigned int` fields are modelled as `Nat`; where 32-bit wraparound can be hit
the arithmetic applies `% 2 ^ 32` explicitly.  C `int` fields are modelled as
`Int`.  The process `abort()` is modelled as `Option.none`.
-/

namespace Batgw

/-- 32-bit unsigned subtraction `a - b` as performed by C on `unsigned int`
operands (both `< 2 ^ 32`). -/
def usub32 (a b : Nat) : Nat := (a + (2 ^ 32 - b % 2 ^ 32)) % 2 ^ 32

/-- `struct batgw_b_state` from src/batgw.c: the aggregated pack state.  The
validity bitmask `bs_valid` is represented by one `Bool` per bit. -/
structure BState where
  running : Bool
  ratedCapacityAh : Nat
  ratedVoltageDv : Nat
  ratedCapacityWh : Nat
  minVoltageDv : Nat
  maxVoltageDv : Nat
  maxChargeW : Nat
  maxDischargeW : Nat
  minCellVoltageMv : Nat
  maxCellVoltageMv : Nat
  validSoc : Bool
  validVoltage : Bool
  validCurrent : Bool
  validMinTemp : Bool
  validMaxTemp : Bool
  validAvgTemp : Bool
  socCpct : Nat
  voltageDv : Nat
  currentDa : Int
  minTempDc : Int
  maxTempDc : Int
  avgTempDc : Int
  deriving Repr, DecidableEq

/-- The zero-initialised `static struct batgw _bg` battery state. -/
def initBState : BState where
  running := false
  ratedCapacityAh := 0
  ratedVoltageDv := 0
  ratedCapacityWh := 0
  minVoltageDv := 0
  maxVoltageDv := 0
  maxChargeW := 0
  maxDischargeW := 0
  minCellVoltageMv := 0
  maxCellVoltageMv := 0
  validSoc := false
  validVoltage := false
  validCurrent := false
  validMinTemp := false
  validMaxTemp := false
  validAvgTemp := false
  socCpct := 0
  voltageDv := 0
  currentDa := 0
  minTempDc := 0
  maxTempDc := 0
  avgTempDc := 0

/-- `struct batgw_i_state`: the inverter-facing state. -/
structure IState where
  running : Bool
  contactor : Bool
  deriving Repr, DecidableEq

/-- The relevant fields of `struct batgw_config_battery` (src/batgw_config.h),
after the defaulting in `main`. -/
structure BConfig where
  ratedCapacityAh : Nat
  ratedVoltageDv : Nat
  minCellVoltageMv : Nat
  maxCellVoltageMv : Nat
  devCellVoltageMv : Nat
  maxChargeW : Nat
  chargeW : Nat
  maxDischargeW : Nat
  dischargeW : Nat
  deriving Repr, DecidableEq

/-! ### Pack state setters (src/batgw.c) -/

/-- `batgw_b_set_running`. -/
def setRunning (bs : BState) : BState := { bs with running := true }

/-- `batgw_b_set_stopped`. -/
def setStopped (bs : BState) : BState := { bs with running := false }

/-- `batgw_b_set_rated_capacity_ah`. -/
def setRatedCapacityAh (bs : BState) (ah : Nat) : BState :=
  { bs with ratedCapacityAh := ah }

/-- `batgw_b_set_rated_voltage_dv`. -/
def setRatedVoltageDv (bs : BState) (dv : Nat) : BState :=
  { bs with ratedVoltageDv := dv }

/-- `batgw_b_set_soc_c_pct`. -/
def setSocCPct (bs : BState) (soc : Nat) : BState :=
  { bs with validSoc := true, socCpct := soc }

/-- `batgw_b_set_min_voltage_dv`: stores into `bs_min_voltage_dv`. -/
def setMinVoltageDv (bs : BState) (dv : Nat) : BState :=
  { bs with minVoltageDv := dv }

/-- `batgw_b_set_max_voltage_dv` as written in src/batgw.c lines 1140-1144:
it stores into `bs_min_voltage_dv`, not `bs_max_voltage_dv`. -/
def setMaxVoltageDv (bs : BState) (dv : Nat) : BState :=
  { bs with minVoltageDv := dv }

/-- `batgw_b_set_voltage_dv`: marks the voltage validity bit and stores. -/
def setVoltageDv (bs : BState) (dv : Nat) : BState :=
  { bs with validVoltage := true, voltageDv := dv }

/-- `batgw_b_set_current_da`. -/
def setCurrentDa (bs : BState) (da : Int) : BState :=
  { bs with validCurrent := true, currentDa := da }

/-- `batgw_b_set_min_temp_dc`. -/
def setMinTempDc (bs : BState) (t : Int) : BState :=
  { bs with validMinTemp := true, minTempDc := t }

/-- `batgw_b_set_max_temp_dc`. -/
def setMaxTempDc (bs : BState) (t : Int) : BState :=
  { bs with validMaxTemp := true, maxTempDc := t }

/-- `batgw_b_set_avg_temp_dc`. -/
def setAvgTempDc (bs : BState) (t : Int) : BState :=
  { bs with validAvgTemp := true, avgTempDc := t }

/-- `batgw_b_set_charge_w`. -/
def setChargeW (bs : BState) (w : Nat) : BState := { bs with maxChargeW := w }

/-- `batgw_b_set_discharge_w`. -/
def setDischargeW (bs : BState) (w : Nat) : BState :=
  { bs with maxDischargeW := w }

/-- `batgw_b_set_min_cell_voltage_mv`. -/
def setMinCellVoltageMv (bs : BState) (mv : Nat) : BState :=
  { bs with minCellVoltageMv := mv }

/-- `batgw_b_set_max_cell_voltage_mv`. -/
def setMaxCellVoltageMv (bs : BState) (mv : Nat) : BState :=
  { bs with maxCellVoltageMv := mv }

/-! ### Pack state accessors (src/batgw.c).  The C functions return 0 and fill
an out-parameter on success, -1 on absence; modelled as `Option`. -/

/-- `batgw_i_get_min_voltage_dv`: present iff `bs_min_voltage_dv` is non-zero. -/
def getMinVoltageDv (bs : BState) : Option Nat :=
  if bs.minVoltageDv ≠ 0 then some bs.minVoltageDv else none

/-- `batgw_i_get_max_voltage_dv` as written in src/batgw.c lines 1266-1277:
it reads `bs_min_voltage_dv` (not the max field). -/
def getMaxVoltageDv (bs : BState) : Option Nat :=
  if bs.minVoltageDv ≠ 0 then some bs.minVoltageDv else none

/-- `batgw_i_get_voltage_dv`: present iff the voltage validity bit is set. -/
def getVoltageDv (bs : BState) : Option Nat :=
  if bs.validVoltage then some bs.voltageDv else none

/-- `batgw_i_get_min_temp_dc`. -/
def getMinTempDc (bs : BState) : Option Int :=
  if bs.validMinTemp then some bs.minTempDc else none

/-- `batgw_i_get_max_temp_dc`. -/
def getMaxTempDc (bs : BState) : Option Int :=
  if bs.validMaxTemp then some bs.maxTempDc else none

/-! ### Safety supervisor (src/batgw.c lines 1401-1469) -/

/-- The two sentinel values drawn in `main`: `v_safe = arc4random()` and then
`v_unsafe = arc4random()` redrawn in a do/while loop until it differs from
`v_safe`, so on loop exit `v_unsafe ≠ v_safe`. -/
structure Sentinels where
  vSafe : Nat
  vUnsafe : Nat
  distinct : vUnsafe ≠ vSafe

/-- The boolean verdict of `batgw_i_get_safety`: the conjunction of the CHECK
chain, in source order (`&&` mirrors the short-circuit goto chain). -/
def getSafetyB (bconf : BConfig) (bs : BState) : Bool :=
  bs.running &&
  bs.validMinTemp &&
  bs.validMaxTemp &&
  (bs.minTempDc ≥ -250) &&
  (bs.maxTempDc ≤ 500) &&
  (bs.minTempDc ≤ bs.maxTempDc) &&
  (bs.maxTempDc - bs.minTempDc < 150) &&
  (bs.minCellVoltageMv ≠ 0) &&
  (bs.maxCellVoltageMv ≠ 0) &&
  (bs.minCellVoltageMv ≤ bs.maxCellVoltageMv) &&
  (bs.maxCellVoltageMv - bs.minCellVoltageMv < bconf.devCellVoltageMv)

/-- `batgw_i_get_safety`: returns `v_safe` when every check passes, `v_unsafe`
otherwise (the reason-logging side effect is not modelled). -/
def getSafety (sv : Sentinels) (bconf : BConfig) (bs : BState) : Nat :=
  if getSafetyB bconf bs then sv.vSafe else sv.vUnsafe

/-- `batgw_i_issafe`: 1 for the safe sentinel, 0 for the unsafe sentinel,
`abort()` (modelled as `none`) for anything else. -/
def issafe (sv : Sentinels) (safety : Nat) : Option Nat :=
  if safety = sv.vSafe then some 1
  else if safety = sv.vUnsafe then some 0
  else none

/-- `batgw_get_safety_limited_da` (src/batgw.c lines 1471-1488): zero when the
stored pack voltage is zero, else `(min w wlimit * 100) / dv` in 32-bit
unsigned arithmetic. -/
def getSafetyLimitedDa (bs : BState) (w wlimit : Nat) : Nat :=
  let dv := bs.voltageDv
  if dv = 0 then 0
  else
    let w' := if w > wlimit then wlimit else w
    ((w' * 100) % 2 ^ 32) / dv

/-- `batgw_i_get_charge_da`: aborts (`none`) when `safety` is neither sentinel,
0 when unsafe or when the max cell voltage exceeds the configured maximum,
else the safety-limited deci-amps. -/
def getChargeDa (sv : Sentinels) (bconf : BConfig) (bs : BState)
    (safety : Nat) : Option Nat :=
  match issafe sv safety with
  | none => none
  | some r =>
    if r = 0 then some 0
    else if bs.maxCellVoltageMv > bconf.maxCellVoltageMv then some 0
    else some (getSafetyLimitedDa bs bs.maxChargeW bconf.chargeW)

/-- `batgw_i_get_discharge_da`: as `getChargeDa` but gated on the minimum cell
voltage and using the discharge limits. -/
def getDischargeDa (sv : Sentinels) (bconf : BConfig) (bs : BState)
    (safety : Nat) : Option Nat :=
  match issafe sv safety with
  | none => none
  | some r =>
    if r = 0 then some 0
    else if bs.minCellVoltageMv < bconf.minCellVoltageMv then some 0
    else some (getSafetyLimitedDa bs bs.maxDischargeW bconf.dischargeW)

/-- A concrete sentinel pair, standing in for one possible outcome of the two
`arc4random()` draws in `main`. -/
def sentinels10 : Sentinels := ⟨1, 0, Nat.zero_ne_one⟩

end Batgw

namespace Batgw

/-- The battery configuration produced by `mg4_config` (src/battery/b_mg4.c):
rated 156 Ah / 327.0 V, BYD cell limits 2800/3800 mV, deviation 150 mV; the
power limits are concrete stand-ins for the `main` defaults. -/
def mg4Conf : BConfig :=
  ⟨156, 3270, 2800, 3800, 150, 5000, 5000, 5000, 5000⟩

/-- A pack state whose fields satisfy every safety check. -/
def safeSt : BState :=
  { initBState with
      running := true
      validMinTemp := true
      validMaxTemp := true
      minTempDc := 290
      maxTempDc := 310
      minCellVoltageMv := 2999
      maxCellVoltageMv := 3001 }

/-- `struct batgw_kv` (src/batgw.h): stored value, last-published monotonic
second, type tag and precision. -/
structure KV where
  key : String
  v : Int
  updated : Nat
  type : Nat
  precision : Nat
  deriving Repr, DecidableEq

/-- `batgw_kv_update` (src/batgw.c lines 965-983): return unchanged when the
new value equals the stored one; otherwise store it, and publish (second
component `true`) only when at least 10 monotonic seconds have passed since
`kv_updated`, refreshing `kv_updated` in that case.  The monotonic clock read
is assumed to succeed and report `now` (truncated to `unsigned int`). -/
def kvUpdate (kv : KV) (v : Int) (now : Nat) : KV × Bool :=
  if kv.v = v then (kv, false)
  else if usub32 now kv.updated < 10 then ({ kv with v := v }, false)
  else ({ kv with v := v, updated := now }, true)

/-- A canonical CAN 2.0A frame: 11-bit id, length, 8 data bytes. -/
structure Frame where
  canId : Nat
  len : Nat
  data : List (Fin 256)
  deriving Repr, DecidableEq

/-- `can_betoh16`: big-endian 16-bit read at byte offset `o`. -/
def canBetoh16 (f : Frame) (o : Nat) : Nat :=
  (f.data.getD o 0).val * 2 ^ 8 + (f.data.getD (o + 1) 0).val

/-- C conversion of an `int` to `uint16_t` (two's complement, mod `2 ^ 16`). -/
def u16ofInt (t : Int) : Nat := (t % 65536).toNat

/-- `can_htobe16`: the two bytes stored for a 16-bit value, high byte first. -/
def htobe16Bytes (h16 : Nat) : List (Fin 256) :=
  [Fin.ofNat (h16 / 2 ^ 8), Fin.ofNat (h16 % 2 ^ 8)]

/-- `byd_can_send_210` (src/inverter/i_byd_can.c lines 490-505): bail out
unless the temperature reads succeed — the source calls
`batgw_i_get_min_temp_dc` for BOTH `min_temp` and `max_temp` — then emit id
0x210 with `max_temp` at offset 0 and `min_temp` at offset 2. -/
def bydCanSend210 (bs : BState) : Option Frame :=
  match getMinTempDc bs with
  | none => none
  | some minTemp =>
    match getMinTempDc bs with
    | none => none
    | some maxTemp =>
      some { canId := 0x210, len := 8,
             data := htobe16Bytes (u16ofInt maxTemp) ++
               htobe16Bytes (u16ofInt minTemp) ++ [0, 0, 0, 0] }

/-- The passive-driver gate at the top of `byd_can_i_recv`
(src/inverter/i_byd_can.c lines 341-353): with `sc->running == 0`, the frame
is dropped when `frame.can_id != 0x151 && frame.data[0] != 0x01`, then dropped
when the pack is not running; otherwise the driver activates (and the frame is
processed).  Returns whether the driver activates. -/
def bydCanIRecvActivates (packRunning : Bool) (f : Frame) : Bool :=
  if f.len ≠ 8 then false
  else if f.canId ≠ 0x151 ∧ f.data.getD 0 0 ≠ (1 : Fin 256) then false
  else if packRunning = false then false
  else true

/-- The contactor inference in the 0x091 arm of `byd_can_i_recv`
(src/inverter/i_byd_can.c lines 385-396): `contactor` starts at 0, and the
guard is `if (batgw_i_get_voltage_dv(bg, &bdv) != 0)` — but that accessor
returns 0 on success and -1 on absence, so the `±20` comparison runs only when
the pack voltage is ABSENT, against the local `bdv` that no path has
initialised (modelled by the extra argument `bdv0` for its indeterminate
value); when the pack voltage is known the body is skipped and the contactor
stays 0 (open). -/
def byd091Contactor (bs : BState) (bdv0 : Nat) (idv : Nat) : Bool :=
  match getVoltageDv bs with
  | some _ => false
  | none =>
    decide ((bdv0 + 20) % 2 ^ 32 > idv) && decide (usub32 bdv0 20 < idv)

/-- Effect of the 0x091 arm on the inverter state: `batgw_i_set_contactor`
with the inferred value (`bdv0` is the indeterminate value of the
uninitialised `bdv` local). -/
def byd091SetContactor (bs : BState) (is : IState) (bdv0 : Nat)
    (f : Frame) : IState :=
  { is with contactor := byd091Contactor bs bdv0 (canBetoh16 f 0) }

/-- `mg4_config` (src/battery/b_mg4.c lines 160-171): forces rated capacity
156 Ah, rated voltage 327.0 V, and the BYD cell-voltage limits 2800/3800 mV
with 150 mV allowed deviation. -/
def mg4Config (bconf : BConfig) : BConfig :=
  { bconf with
      ratedCapacityAh := 156
      ratedVoltageDv := 3270
      minCellVoltageMv := 2800
      maxCellVoltageMv := 3800
      devCellVoltageMv := 150 }

/-- The pack-state seeding performed unconditionally by `mg4_dispatch`
(src/battery/b_mg4.c lines 220-252), before any CAN frame has been received. -/
def mg4DispatchSeed (bconf : BConfig) (bs : BState) : BState :=
  let bs1 := setRatedCapacityAh bs bconf.ratedCapacityAh
  let bs2 := setRatedVoltageDv bs1 bconf.ratedVoltageDv
  let bs3 := setMinVoltageDv bs2 (2600 + 200)
  let bs4 := setMaxVoltageDv bs3 (3790 - 200)
  let bs5 := setChargeW bs4 5000
  let bs6 := setDischargeW bs5 5000
  let bs7 := setMinTempDc bs6 290
  let bs8 := setMaxTempDc bs7 310
  let bs9 := setAvgTempDc bs8 300
  let bs10 := setMinCellVoltageMv bs9 2999
  setMaxCellVoltageMv bs10 3001

/-- The pack-state effect of `mg4_can_recv` on a frame with id 0x12C
(src/battery/b_mg4.c lines 448-485): mark running, decode current as
`-((be16@2 - 20000) / 2)` (C truncating division) and voltage as
`(be16@4 * 5) >> 5`. -/
def mg4Recv12c (bs : BState) (f : Frame) : BState :=
  let bs1 := setRunning bs
  let sv : Int := Int.tdiv ((canBetoh16 f 2 : Int) - 20000) 2
  let bs2 := setCurrentDa bs1 (0 - sv)
  let uv : Nat := canBetoh16 f 4 * 5 / 2 ^ 5
  setVoltageDv bs2 uv

/-- Pack state and configuration exercising the 32-bit wrap of the wattage
product: 42 949 673 W × 100 = 4 294 967 300 wraps to 4. -/
def ovfSt : BState :=
  { safeSt with voltageDv := 1, maxChargeW := 42949673 }

/-- Configuration matching `ovfSt`, with a 42 949 673 W configured charge
limit. -/
def ovfConf : BConfig :=
  ⟨156, 3270, 2800, 3800, 150, 5000, 42949673, 5000, 5000⟩

/-- An id-0x12C status frame (the S5 scenario payload). -/
def frame12c : Frame := ⟨0x12c, 8, [0, 0, 0x4e, 0x20, 0, 0xc8, 0, 0]⟩

/-- A frame whose id is not 0x151 but whose first payload byte is 0x01. -/
def frameNot151 : Frame := ⟨0x019, 8, [1, 0, 0, 0, 0, 0, 0, 0]⟩

/-- An id-0x151 frame whose first payload byte is not 0x01. -/
def frame151b0 : Frame := ⟨0x151, 8, [0, 0, 0, 0, 0, 0, 0, 0]⟩

/-- A pack state with min temp 10.0 degC and max temp 20.0 degC, both valid. -/
def st210 : BState :=
  { initBState with
      validMinTemp := true
      minTempDc := 100
      validMaxTemp := true
      maxTempDc := 200 }

/-- A pack state with only the min temperature valid. -/
def st210' : BState :=
  { initBState with validMinTemp := true, minTempDc := 100 }

/-- A pack state with a known voltage of 40.0 V (400 dV). -/
def st091 : BState := { initBState with validVoltage := true, voltageDv := 400 }

/-- An initial (stopped, contactor open) inverter state. -/
def is0 : IState := ⟨false, false⟩

/-- An id-0x091 frame reporting 41.0 V (410 dV, big-endian at offset 0). -/
def frame091in : Frame := ⟨0x091, 8, [1, 154, 0, 0, 0, 0, 0, 0]⟩

/-- The character for a decimal digit, as produced by `snprintf` `%u`. -/
def charOfDigit (d : Nat) : Char := Char.ofNat (48 + d)

/-- The value of a decimal digit character. -/
def digitVal (c : Char) : Nat := c.toNat - 48

/-- The decimal digits of `n`, least significant first (never empty). -/
def natDigitsRev (n : Nat) : List Nat :=
  if h : n < 10 then [n]
  else
    have : n / 10 < n := Nat.div_lt_self (by omega) (by omega)
    n % 10 :: natDigitsRev (n / 10)

/-- The value of a least-significant-first digit list. -/
def digitsRevVal : List Nat → Nat
  | [] => 0
  | d :: ds => d + 10 * digitsRevVal ds

/-- The decimal rendering of `n`, as `snprintf` `%u` prints it. -/
def natToChars (n : Nat) : List Char :=
  ((natDigitsRev n).reverse).map charOfDigit

/-- The digits of `m` zero-padded to width `p`, least significant first. -/
def padRev (p m : Nat) : List Nat :=
  natDigitsRev m ++ List.replicate (p - (natDigitsRev m).length) 0

/-- The fractional field printed by `snprintf` `%0*u` with width `p`. -/
def fracChars (p m : Nat) : List Char :=
  ((padRev p m).reverse).map charOfDigit

/-- The payload formatted by `batgw_kv_publish` (src/batgw.c lines 944-960)
for a value `v` at the given precision: `%d` at precision 0, else
`%s%u.%0*u` with `neg`, `v / div`, the precision, and `v % div`, where
`div = 10 ^ precision` (the `divs` table) and the magnitude is `|v|` with a
minus prefix for negative values. -/
def kvFormat (precision : Nat) (v : Int) : List Char :=
  if precision = 0 then
    (if v < 0 then ['-'] else []) ++ natToChars v.natAbs
  else
    (if v < 0 then ['-'] else []) ++
      natToChars (v.natAbs / 10 ^ precision) ++
      '.' :: fracChars precision (v.natAbs % 10 ^ precision)

/-- Reads a decimal digit string (most significant first). -/
def charsToNat (s : List Char) : Nat :=
  s.foldl (fun acc c => acc * 10 + digitVal c) 0

/-- Parses a payload back as a fixed-point number: an optional minus sign
followed by decimal digits with an optional embedded decimal point; the result
is the scaled integer (the digits with the point dropped), which for a string
with exactly `p` fractional digits is the value at precision `p`. -/
def parseFixedPoint (s : List Char) : Int :=
  match s with
  | [] => 0
  | c :: t =>
    if c = '-' then -(charsToNat (t.filter fun x => x != '.') : Int)
    else (charsToNat ((c :: t).filter fun x => x != '.') : Int)

/-! ### Theorems -/

/-- The boolean check chain of the safety supervisor, as a conjunction of
propositions. -/
theorem getSafetyB_true_iff (bconf : BConfig) (bs : BState) :
    getSafetyB bconf bs = true ↔
      (bs.running = true ∧
       bs.validMinTemp = true ∧
       bs.validMaxTemp = true ∧
       bs.minTempDc ≥ -250 ∧
       bs.maxTempDc ≤ 500 ∧
       bs.minTempDc ≤ bs.maxTempDc ∧
       bs.maxTempDc - bs.minTempDc < 150 ∧
       bs.minCellVoltageMv ≠ 0 ∧
       bs.maxCellVoltageMv ≠ 0 ∧
       bs.minCellVoltageMv ≤ bs.maxCellVoltageMv ∧
       bs.maxCellVoltageMv - bs.minCellVoltageMv < bconf.devCellVoltageMv) := by
  simp [getSafetyB, Bool.and_eq_true, decide_eq_true_eq, and_assoc]

/-- The safe verdict is equivalent to the check chain passing, and the verdict
is always one of the two sentinels. -/
theorem getSafety_vSafe_iff (sv : Sentinels) (bconf : BConfig) (bs : BState) :
    (getSafety sv bconf bs = sv.vSafe ↔ getSafetyB bconf bs = true) ∧
    (getSafety sv bconf bs = sv.vSafe ∨ getSafety sv bconf bs = sv.vUnsafe) := by
  unfold getSafety
  by_cases h : getSafetyB bconf bs
  · rw [if_pos h]
    exact ⟨⟨fun _ => h, fun _ => rfl⟩, Or.inl rfl⟩
  · rw [if_neg h]
    exact ⟨⟨fun he => absurd he sv.distinct, fun hc => absurd hc h⟩, Or.inr rfl⟩

/-- C1: `batgw_i_get_safety` returns the safe sentinel iff the pack is running,
both temperature validity bits are set, `min_temp_dC ≥ -250`,
`max_temp_dC ≤ 500`, `min_temp_dC ≤ max_temp_dC`,
`max_temp_dC - min_temp_dC < 150`, both cell voltages are non-zero,
`min_cell_mV ≤ max_cell_mV`, and their difference is below the configured
deviation limit; in every other state it returns the unsafe sentinel. -/
theorem getSafety_safe_iff (sv : Sentinels) (bconf : BConfig) (bs : BState) :
    (getSafety sv bconf bs = sv.vSafe ↔
      (bs.running = true ∧
       bs.validMinTemp = true ∧
       bs.validMaxTemp = true ∧
       bs.minTempDc ≥ -250 ∧
       bs.maxTempDc ≤ 500 ∧
       bs.minTempDc ≤ bs.maxTempDc ∧
       bs.maxTempDc - bs.minTempDc < 150 ∧
       bs.minCellVoltageMv ≠ 0 ∧
       bs.maxCellVoltageMv ≠ 0 ∧
       bs.minCellVoltageMv ≤ bs.maxCellVoltageMv ∧
       bs.maxCellVoltageMv - bs.minCellVoltageMv < bconf.devCellVoltageMv)) ∧
    (getSafety sv bconf bs = sv.vSafe ∨ getSafety sv bconf bs = sv.vUnsafe) := by
  obtain ⟨hiff, hor⟩ := getSafety_vSafe_iff sv bconf bs
  exact ⟨hiff.trans (getSafetyB_true_iff bconf bs), hor⟩


/-- C1 witness: the theorem applied at a concrete sentinel pair, configuration
and fully in-range pack state yields the safe sentinel. -/
theorem getSafety_safe_iff_witness :
    getSafety sentinels10 mg4Conf safeSt = sentinels10.vSafe := by
  exact ((getSafety_safe_iff sentinels10 mg4Conf safeSt).1).mpr
    (by refine ⟨rfl, rfl, rfl, ?_, ?_, ?_, ?_, ?_, ?_, ?_, ?_⟩ <;> decide)

/-- C3: `batgw_i_get_safety` only ever returns one of the two startup
sentinels, the sentinels are distinct, and `batgw_i_issafe` returns 1 on the
safe sentinel, 0 on the unsafe sentinel, and aborts (modelled `none`) on any
other value. -/
theorem issafe_abort_spec (sv : Sentinels) (bconf : BConfig) (bs : BState)
    (x : Nat) :
    (getSafety sv bconf bs = sv.vSafe ∨ getSafety sv bconf bs = sv.vUnsafe) ∧
    sv.vSafe ≠ sv.vUnsafe ∧
    issafe sv sv.vSafe = some 1 ∧
    issafe sv sv.vUnsafe = some 0 ∧
    (x ≠ sv.vSafe → x ≠ sv.vUnsafe → issafe sv x = none) := by
  refine ⟨?_, fun h => sv.distinct h.symm, ?_, ?_, ?_⟩
  · unfold getSafety
    by_cases h : getSafetyB bconf bs
    · rw [if_pos h]; exact Or.inl rfl
    · rw [if_neg h]; exact Or.inr rfl
  · simp [issafe]
  · simp [issafe, sv.distinct]
  · intro h1 h2
    simp [issafe, h1, h2]

/-- C3 witness: the theorem applied at concrete sentinels 1/0, the initial
state, and the third value 2, which `issafe` rejects with an abort. -/
theorem issafe_abort_spec_witness :
    issafe sentinels10 2 = none := by
  exact (issafe_abort_spec sentinels10 mg4Conf initBState 2).2.2.2.2
    (by decide) (by decide)

/-- C2 (amended): both envelope functions return 0 on the unsafe sentinel, on a
zero (unknown) stored pack voltage, and on a cell voltage outside the
configured bound; otherwise they return `(min(manufacturer_W, config_W) × 100)
/ voltage_dV`, exactly as claimed whenever the product stays below `2 ^ 32`
(the C arithmetic is 32-bit unsigned and wraps above that). -/
theorem chargeDischarge_da_spec (sv : Sentinels) (bconf : BConfig)
    (bs : BState) :
    getChargeDa sv bconf bs sv.vUnsafe = some 0 ∧
    getDischargeDa sv bconf bs sv.vUnsafe = some 0 ∧
    (bs.voltageDv = 0 →
      getChargeDa sv bconf bs sv.vSafe = some 0 ∧
      getDischargeDa sv bconf bs sv.vSafe = some 0) ∧
    (bs.maxCellVoltageMv > bconf.maxCellVoltageMv →
      getChargeDa sv bconf bs sv.vSafe = some 0) ∧
    (bs.minCellVoltageMv < bconf.minCellVoltageMv →
      getDischargeDa sv bconf bs sv.vSafe = some 0) ∧
    (bs.voltageDv ≠ 0 → bs.maxCellVoltageMv ≤ bconf.maxCellVoltageMv →
      min bs.maxChargeW bconf.chargeW * 100 < 2 ^ 32 →
      getChargeDa sv bconf bs sv.vSafe =
        some (min bs.maxChargeW bconf.chargeW * 100 / bs.voltageDv)) ∧
    (bs.voltageDv ≠ 0 → bconf.minCellVoltageMv ≤ bs.minCellVoltageMv →
      min bs.maxDischargeW bconf.dischargeW * 100 < 2 ^ 32 →
      getDischargeDa sv bconf bs sv.vSafe =
        some (min bs.maxDischargeW bconf.dischargeW * 100 / bs.voltageDv)) := by
  have hsafe : issafe sv sv.vSafe = some 1 := by simp [issafe]
  have hunsafe : issafe sv sv.vUnsafe = some 0 := by
    simp [issafe, sv.distinct]
  have hlimited : ∀ w wlimit : Nat, bs.voltageDv ≠ 0 →
      min w wlimit * 100 < 2 ^ 32 →
      getSafetyLimitedDa bs w wlimit = min w wlimit * 100 / bs.voltageDv := by
    intro w wlimit hdv hlt
    unfold getSafetyLimitedDa
    rw [if_neg hdv]
    have hmin : (if w > wlimit then wlimit else w) = min w wlimit := by
      rw [Nat.min_def]; split <;> split <;> omega
    simp only [hmin, Nat.mod_eq_of_lt hlt]
  refine ⟨?_, ?_, ?_, ?_, ?_, ?_, ?_⟩
  · rw [getChargeDa, hunsafe]; simp
  · rw [getDischargeDa, hunsafe]; simp
  · intro hdv
    constructor
    · rw [getChargeDa, hsafe]
      simp only [getSafetyLimitedDa, hdv]
      split <;> simp
    · rw [getDischargeDa, hsafe]
      simp only [getSafetyLimitedDa, hdv]
      split <;> simp
  · intro hcell
    rw [getChargeDa, hsafe]
    simp [hcell]
  · intro hcell
    rw [getDischargeDa, hsafe]
    simp [hcell]
  · intro hdv hcell hlt
    rw [getChargeDa, hsafe]
    simp only [Nat.one_ne_zero, if_false, if_neg (not_lt.mpr hcell)]
    rw [hlimited _ _ hdv hlt]
  · intro hdv hcell hlt
    rw [getDischargeDa, hsafe]
    simp only [Nat.one_ne_zero, if_false, if_neg (not_lt.mpr hcell)]
    rw [hlimited _ _ hdv hlt]

/-- Unsigned subtraction agrees with `Nat` subtraction when no borrow occurs. -/
theorem usub32_eq_sub {a b : Nat} (hb : b ≤ a) (ha : a < 2 ^ 32) :
    usub32 a b = a - b := by
  unfold usub32
  have hb' : b < 2 ^ 32 := lt_of_le_of_lt hb ha
  rw [Nat.mod_eq_of_lt hb']
  have h : a + (2 ^ 32 - b) = (a - b) + 2 ^ 32 := by omega
  rw [h, Nat.add_mod_right, Nat.mod_eq_of_lt (by omega)]

/-- C2 counterexample: with charge limits of 42 949 673 W and a pack voltage of
0.1 V, the code returns 4 dA while the claimed formula
`min(...) × 100 / voltage_dV` gives 4 294 967 300 dA: the multiplication is
32-bit and wraps. -/
theorem chargeDa_overflow_counterexample :
    getChargeDa sentinels10 ovfConf ovfSt sentinels10.vSafe = some 4 ∧
    min ovfSt.maxChargeW ovfConf.chargeW * 100 / ovfSt.voltageDv =
      4294967300 ∧
    (4 : Nat) ≠ 4294967300 := by
  refine ⟨by decide, by decide, by decide⟩

/-- C2 witness: the amended theorem applied at the safe sentinel, concrete
state and configuration, with every hypothesis discharged, yields the exact
envelope `min(5000, 5000) × 100 / 3275 = 152` dA. -/
theorem chargeDischarge_da_spec_witness :
    getChargeDa sentinels10 mg4Conf
      { safeSt with voltageDv := 3275, maxChargeW := 5000 } sentinels10.vSafe =
      some 152 := by
  have h := (chargeDischarge_da_spec sentinels10 mg4Conf
    { safeSt with voltageDv := 3275, maxChargeW := 5000 }).2.2.2.2.2.1
    (by decide) (by decide) (by decide)
  rw [h]
  decide

/-- C9: `batgw_kv_update` suppresses an equal value entirely; a distinct value
is always stored, and is published exactly when at least 10 monotonic seconds
have elapsed since the last publish, in which case (and only then) the
last-published timestamp becomes `now`. -/
theorem kvUpdate_spec (kv : KV) (v : Int) (now : Nat) :
    (kv.v = v → kvUpdate kv v now = (kv, false)) ∧
    (kv.v ≠ v → kv.updated ≤ now → now < 2 ^ 32 →
      ((now - kv.updated < 10 →
        kvUpdate kv v now = ({ kv with v := v }, false)) ∧
       (10 ≤ now - kv.updated →
        kvUpdate kv v now = ({ kv with v := v, updated := now }, true)))) := by
  constructor
  · intro h
    unfold kvUpdate
    rw [if_pos h]
  · intro hne hle hlt
    unfold kvUpdate
    rw [if_neg hne, usub32_eq_sub hle hlt]
    constructor
    · intro h10
      rw [if_pos h10]
    · intro h10
      rw [if_neg (not_lt.mpr h10)]

/-- C9 witness: the theorem applied to a concrete KV.  At 12 s with a
last-publish stamp of 0, a distinct value is stored and published. -/
theorem kvUpdate_spec_witness :
    kvUpdate ⟨"soc", 0, 0, 7, 1⟩ 5 12 = (⟨"soc", 5, 12, 7, 1⟩, true) := by
  exact ((kvUpdate_spec ⟨"soc", 0, 0, 7, 1⟩ 5 12).2 (by decide) (by decide)
    (by decide)).2 (by decide)

set_option maxRecDepth 8192 in
/-- C4: `mg4_dispatch` unconditionally seeds fabricated in-range safety inputs
(temperatures 290/310/300 ddegC with validity bits, cell voltages
2999/3001 mV, 5000 W limits) while the pack is still not running, and once any
id-0x12C frame marks the pack running, `batgw_i_get_safety` returns the safe
sentinel although nothing was decoded from the battery. -/
theorem mg4_seed_then_running_safe (sv : Sentinels) (base : BConfig)
    (f : Frame) :
    ((mg4DispatchSeed (mg4Config base) initBState).validMinTemp = true ∧
     (mg4DispatchSeed (mg4Config base) initBState).minTempDc = 290 ∧
     (mg4DispatchSeed (mg4Config base) initBState).validMaxTemp = true ∧
     (mg4DispatchSeed (mg4Config base) initBState).maxTempDc = 310 ∧
     (mg4DispatchSeed (mg4Config base) initBState).validAvgTemp = true ∧
     (mg4DispatchSeed (mg4Config base) initBState).avgTempDc = 300 ∧
     (mg4DispatchSeed (mg4Config base) initBState).minCellVoltageMv = 2999 ∧
     (mg4DispatchSeed (mg4Config base) initBState).maxCellVoltageMv = 3001 ∧
     (mg4DispatchSeed (mg4Config base) initBState).maxChargeW = 5000 ∧
     (mg4DispatchSeed (mg4Config base) initBState).maxDischargeW = 5000 ∧
     (mg4DispatchSeed (mg4Config base) initBState).running = false) ∧
    getSafety sv (mg4Config base)
      (mg4Recv12c (mg4DispatchSeed (mg4Config base) initBState) f) =
      sv.vSafe := by
  refine ⟨⟨rfl, rfl, rfl, rfl, rfl, rfl, rfl, rfl, rfl, rfl, rfl⟩, ?_⟩
  refine ((getSafety_vSafe_iff sv (mg4Config base)
    (mg4Recv12c (mg4DispatchSeed (mg4Config base) initBState) f)).1).mpr ?_
  refine (getSafetyB_true_iff (mg4Config base)
    (mg4Recv12c (mg4DispatchSeed (mg4Config base) initBState) f)).mpr ?_
  have eRun : (mg4Recv12c (mg4DispatchSeed (mg4Config base) initBState)
      f).running = true := rfl
  have eVMin : (mg4Recv12c (mg4DispatchSeed (mg4Config base) initBState)
      f).validMinTemp = true := rfl
  have eVMax : (mg4Recv12c (mg4DispatchSeed (mg4Config base) initBState)
      f).validMaxTemp = true := rfl
  have eMin : (mg4Recv12c (mg4DispatchSeed (mg4Config base) initBState)
      f).minTempDc = 290 := rfl
  have eMax : (mg4Recv12c (mg4DispatchSeed (mg4Config base) initBState)
      f).maxTempDc = 310 := rfl
  have eCMin : (mg4Recv12c (mg4DispatchSeed (mg4Config base) initBState)
      f).minCellVoltageMv = 2999 := rfl
  have eCMax : (mg4Recv12c (mg4DispatchSeed (mg4Config base) initBState)
      f).maxCellVoltageMv = 3001 := rfl
  have eDev : (mg4Config base).devCellVoltageMv = 150 := rfl
  rw [eRun, eVMin, eVMax, eMin, eMax, eCMin, eCMax, eDev]
  refine ⟨rfl, rfl, rfl, ?_, ?_, ?_, ?_, ?_, ?_, ?_, ?_⟩ <;> decide

/-- C4 witness: the theorem applied at concrete sentinels, base configuration
and the S5 frame. -/
theorem mg4_seed_then_running_safe_witness :
    getSafety sentinels10 (mg4Config mg4Conf)
      (mg4Recv12c (mg4DispatchSeed (mg4Config mg4Conf) initBState) frame12c) =
      sentinels10.vSafe := by
  exact (mg4_seed_then_running_safe sentinels10 mg4Conf frame12c).2

/-- C5 failing evaluation: with the pack running, the passive inverter driver
activates on a frame with id 0x019 and first byte 0x01, and also on an id
0x151 frame with first byte 0x00 — the early-return condition joins its two
tests with `&&` where the claimed trigger requires `||`. -/
theorem bydCanI_activation_bug :
    bydCanIRecvActivates true frameNot151 = true ∧
    frameNot151.canId ≠ 0x151 ∧
    bydCanIRecvActivates true frame151b0 = true ∧
    frame151b0.data.getD 0 0 ≠ (1 : Fin 256) := by
  refine ⟨by decide, by decide, by decide, by decide⟩

/-- C7 failing evaluation: after `batgw_b_set_min_voltage_dv(3000)` then
`batgw_b_set_max_voltage_dv(3700)`, the min accessor reports 3700 (not 3000):
the max setter stores into the min field, and the max field stays 0. -/
theorem setMaxVoltageDv_bug :
    getMinVoltageDv (setMaxVoltageDv (setMinVoltageDv initBState 3000) 3700) =
      some 3700 ∧
    getMaxVoltageDv (setMaxVoltageDv (setMinVoltageDv initBState 3000) 3700) =
      some 3700 ∧
    (setMaxVoltageDv (setMinVoltageDv initBState 3000) 3700).maxVoltageDv =
      0 ∧
    (3700 : Nat) ≠ 3000 := by
  refine ⟨by decide, by decide, by decide, by decide⟩

/-- C8 failing evaluation: with min 100 and max 200 ddegC both valid,
`byd_can_send_210` emits 100 in bytes 0-1 (claimed: the max, 200) because it
reads the min temperature twice; and the frame is still sent when the max
temperature is absent. -/
theorem bydCanSend210_bug :
    bydCanSend210 st210 = some ⟨0x210, 8, [0, 100, 0, 100, 0, 0, 0, 0]⟩ ∧
    st210.maxTempDc = 200 ∧
    bydCanSend210 st210' = some ⟨0x210, 8, [0, 100, 0, 100, 0, 0, 0, 0]⟩ ∧
    st210'.validMaxTemp = false := by
  refine ⟨by decide, by decide, by decide, by decide⟩

/-- C6 failing evaluation: with the pack voltage known at 400 dV and an 0x091
frame reporting 410 dV (difference 10 dV, well within the claimed 20 dV), the
code sets the contactor open, whatever the uninitialised `bdv` holds: the
presence test `batgw_i_get_voltage_dv(...) != 0` is inverted (the accessor
returns 0 on success), so the ±20 comparison only runs when the pack voltage
is absent — and then against the uninitialised local, which can even close
the contactor with no pack voltage at all (last conjunct, residual value
400). -/
theorem byd091_contactor_bug :
    (∀ bdv0 : Nat,
      (byd091SetContactor st091 is0 bdv0 frame091in).contactor = false) ∧
    getVoltageDv st091 = some 400 ∧
    canBetoh16 frame091in 0 = 410 ∧
    (410 - 400 : Nat) ≤ 20 ∧
    (byd091SetContactor initBState is0 400 frame091in).contactor = true := by
  refine ⟨fun bdv0 => rfl, by decide, by decide, by decide, by decide⟩

/-- Every digit emitted by `natDigitsRev` is below 10. -/
theorem natDigitsRev_lt (n : Nat) : ∀ d ∈ natDigitsRev n, d < 10 := by
  induction n using Nat.strong_induction_on with
  | _ n ih =>
    intro d hd
    rw [natDigitsRev] at hd
    split at hd
    · next h =>
      simp only [List.mem_singleton] at hd
      omega
    · next h =>
      rcases List.mem_cons.mp hd with h1 | h2
      · omega
      · exact ih (n / 10) (Nat.div_lt_self (by omega) (by omega)) d h2

/-- `natDigitsRev` never returns the empty list. -/
theorem natDigitsRev_ne_nil (n : Nat) : natDigitsRev n ≠ [] := by
  rw [natDigitsRev]
  split <;> simp

/-- A number below `10 ^ p` has at most `p` digits. -/
theorem natDigitsRev_length_le (p : Nat) :
    ∀ m, m < 10 ^ p → 1 ≤ p → (natDigitsRev m).length ≤ p := by
  induction p with
  | zero => omega
  | succ q ih =>
    intro m hm _
    rw [natDigitsRev]
    split
    · simp
    · next h =>
      have hq : 1 ≤ q := by
        by_contra hq0
        have : q = 0 := by omega
        subst this
        simp [pow_succ] at hm
        omega
      have hdiv : m / 10 < 10 ^ q := by
        rw [Nat.div_lt_iff_lt_mul (by omega)]
        calc m < 10 ^ (q + 1) := hm
        _ = 10 ^ q * 10 := by rw [pow_succ]
      simpa using Nat.succ_le_succ (ih (m / 10) hdiv hq)

/-- Digit characters round-trip through their values. -/
theorem digitVal_charOfDigit {d : Nat} (h : d < 10) :
    digitVal (charOfDigit d) = d := by
  interval_cases d <;> decide

/-- Digit characters are not the decimal point. -/
theorem charOfDigit_ne_dot {d : Nat} (h : d < 10) : charOfDigit d ≠ '.' := by
  interval_cases d <;> decide

/-- Digit characters are not the minus sign. -/
theorem charOfDigit_ne_dash {d : Nat} (h : d < 10) : charOfDigit d ≠ '-' := by
  interval_cases d <;> decide

/-- Folding the read step from an accumulator `a`. -/
theorem charsToNat_foldl (l : List Char) (a : Nat) :
    l.foldl (fun acc c => acc * 10 + digitVal c) a =
      a * 10 ^ l.length + charsToNat l := by
  induction l generalizing a with
  | nil => simp [charsToNat]
  | cons c t ih =>
    simp only [List.foldl_cons, List.length_cons, charsToNat]
    rw [ih (a * 10 + digitVal c), ih (0 * 10 + digitVal c)]
    ring

/-- Reading a concatenation splits at the length of the suffix. -/
theorem charsToNat_append (l1 l2 : List Char) :
    charsToNat (l1 ++ l2) =
      charsToNat l1 * 10 ^ l2.length + charsToNat l2 := by
  unfold charsToNat
  rw [List.foldl_append]
  exact charsToNat_foldl l2 _

/-- Reading a reversed digit list recovers its little-endian value. -/
theorem charsToNat_revmap (ds : List Nat) (h : ∀ d ∈ ds, d < 10) :
    charsToNat ((ds.reverse).map charOfDigit) = digitsRevVal ds := by
  induction ds with
  | nil => rfl
  | cons d t ih =>
    simp only [List.reverse_cons, List.map_append, List.map_cons,
      List.map_nil, digitsRevVal]
    rw [charsToNat_append]
    have hd : d < 10 := h d (List.mem_cons_self d t)
    have ht : ∀ x ∈ t, x < 10 := fun x hx => h x (List.mem_cons_of_mem d hx)
    rw [ih ht]
    simp [charsToNat, digitVal_charOfDigit hd]
    ring

/-- `digitsRevVal` inverts `natDigitsRev`. -/
theorem digitsRevVal_natDigitsRev (n : Nat) :
    digitsRevVal (natDigitsRev n) = n := by
  induction n using Nat.strong_induction_on with
  | _ n ih =>
    rw [natDigitsRev]
    split
    · simp [digitsRevVal]
    · next h =>
      simp only [digitsRevVal]
      rw [ih (n / 10) (Nat.div_lt_self (by omega) (by omega))]
      omega

/-- High-order zero padding does not change the value. -/
theorem digitsRevVal_append_zeros (ds : List Nat) (k : Nat) :
    digitsRevVal (ds ++ List.replicate k 0) = digitsRevVal ds := by
  induction ds with
  | nil =>
    simp only [List.nil_append]
    induction k with
    | zero => rfl
    | succ j ihj => simpa [List.replicate_succ, digitsRevVal] using ihj
  | cons d t ih => simp [digitsRevVal, ih]

/-- Reading back the decimal rendering of `n` recovers `n`. -/
theorem natToChars_val (n : Nat) : charsToNat (natToChars n) = n := by
  unfold natToChars
  rw [charsToNat_revmap _ (natDigitsRev_lt n), digitsRevVal_natDigitsRev]

/-- Every digit of the padded fractional field is below 10. -/
theorem padRev_lt (p m : Nat) : ∀ d ∈ padRev p m, d < 10 := by
  intro d hd
  rcases List.mem_append.mp hd with h1 | h2
  · exact natDigitsRev_lt m d h1
  · have := List.eq_of_mem_replicate h2
    omega

/-- Reading back the zero-padded fractional field recovers its value. -/
theorem fracChars_val (p m : Nat) : charsToNat (fracChars p m) = m := by
  unfold fracChars
  rw [charsToNat_revmap _ (padRev_lt p m)]
  unfold padRev
  rw [digitsRevVal_append_zeros, digitsRevVal_natDigitsRev]

/-- The fractional field has exactly `p` characters when its value fits. -/
theorem fracChars_length (p m : Nat) (hm : m < 10 ^ p) (hp : 1 ≤ p) :
    (fracChars p m).length = p := by
  have hle := natDigitsRev_length_le p m hm hp
  unfold fracChars padRev
  simp only [List.length_map, List.length_reverse, List.length_append,
    List.length_replicate]
  omega

/-- Every character of a decimal rendering is a digit character. -/
theorem natToChars_digits (n : Nat) :
    ∀ c ∈ natToChars n, ∃ d, d < 10 ∧ c = charOfDigit d := by
  intro c hc
  unfold natToChars at hc
  obtain ⟨d, hd, rfl⟩ := List.mem_map.mp hc
  exact ⟨d, natDigitsRev_lt n d (List.mem_reverse.mp hd), rfl⟩

/-- Every character of the fractional field is a digit character. -/
theorem fracChars_digits (p m : Nat) :
    ∀ c ∈ fracChars p m, ∃ d, d < 10 ∧ c = charOfDigit d := by
  intro c hc
  unfold fracChars at hc
  obtain ⟨d, hd, rfl⟩ := List.mem_map.mp hc
  exact ⟨d, padRev_lt p m d (List.mem_reverse.mp hd), rfl⟩

/-- Filtering the decimal point out of a digit-only string is the identity. -/
theorem filter_dot_digits (l : List Char)
    (h : ∀ c ∈ l, ∃ d, d < 10 ∧ c = charOfDigit d) :
    l.filter (fun x => x != '.') = l := by
  apply List.filter_eq_self.mpr
  intro c hc
  obtain ⟨d, hd, rfl⟩ := h c hc
  simpa [bne_iff_ne] using charOfDigit_ne_dot hd

/-- The parser on a string led by the minus sign. -/
theorem parseFixedPoint_dash (t : List Char) :
    parseFixedPoint ('-' :: t) =
      -(charsToNat (t.filter fun x => x != '.') : Int) := by
  simp [parseFixedPoint]

/-- The parser on a string led by anything but the minus sign. -/
theorem parseFixedPoint_cons_ne (c : Char) (t : List Char) (h : c ≠ '-') :
    parseFixedPoint (c :: t) =
      (charsToNat ((c :: t).filter fun x => x != '.') : Int) := by
  simp [parseFixedPoint, h]

/-- The decimal rendering is never empty. -/
theorem natToChars_ne_nil (n : Nat) : natToChars n ≠ [] := by
  unfold natToChars
  simp [natDigitsRev_ne_nil]

/-- C10: the payload formatted by `batgw_kv_publish` is an optional minus
sign, the whole part `|v| / 10 ^ p`, and for `p > 0` a decimal point followed
by exactly `p` zero-padded fractional digits of `|v| mod 10 ^ p` (this shape
is the definition of `kvFormat`, translated from the source; the length
conjunct records the exact digit count); parsing the payload back as a
fixed-point number with `p` fractional digits recovers `v`.  The value is
assumed representable as a C `int` other than the reserved `INT_MIN`
never-set sentinel. -/
theorem kvFormat_roundTrip (v : Int) (p : Nat) (hp : p ≤ 4)
    (hv : v.natAbs < 2 ^ 31) :
    parseFixedPoint (kvFormat p v) = v ∧
    (p ≠ 0 → (fracChars p (v.natAbs % 10 ^ p)).length = p) := by
  have hpow : 0 < 10 ^ p := Nat.pos_pow_of_pos p (by omega)
  constructor
  · by_cases hp0 : p = 0
    · subst hp0
      unfold kvFormat
      rw [if_pos rfl]
      by_cases hneg : v < 0
      · rw [if_pos hneg, List.singleton_append, parseFixedPoint_dash,
          filter_dot_digits _ (natToChars_digits _), natToChars_val]
        omega
      · rw [if_neg hneg, List.nil_append]
        rcases hs : natToChars v.natAbs with _ | ⟨c, t⟩
        · exact absurd hs (natToChars_ne_nil _)
        · obtain ⟨d, hd, hc⟩ := natToChars_digits v.natAbs c
            (hs ▸ List.mem_cons_self c t)
          rw [parseFixedPoint_cons_ne c t (hc ▸ charOfDigit_ne_dash hd),
            ← hs, filter_dot_digits _ (natToChars_digits _), natToChars_val]
          omega
    · have hm : v.natAbs % 10 ^ p < 10 ^ p := Nat.mod_lt _ hpow
      have hlen : (fracChars p (v.natAbs % 10 ^ p)).length = p :=
        fracChars_length p _ hm (by omega)
      have hdot : (('.' :: fracChars p (v.natAbs % 10 ^ p)).filter
          fun x => x != '.') = fracChars p (v.natAbs % 10 ^ p) := by
        rw [List.filter_cons]
        simp [filter_dot_digits _ (fracChars_digits p _)]
      have hcat : charsToNat ((natToChars (v.natAbs / 10 ^ p) ++
          '.' :: fracChars p (v.natAbs % 10 ^ p)).filter
          fun x => x != '.') = v.natAbs := by
        rw [List.filter_append, filter_dot_digits _ (natToChars_digits _),
          hdot, charsToNat_append, natToChars_val, fracChars_val, hlen]
        exact Nat.div_add_mod' v.natAbs (10 ^ p)
      unfold kvFormat
      rw [if_neg hp0]
      by_cases hneg : v < 0
      · rw [if_pos hneg, List.append_assoc, List.singleton_append,
          parseFixedPoint_dash, hcat]
        omega
      · rw [if_neg hneg, List.nil_append]
        rcases hs : natToChars (v.natAbs / 10 ^ p) with _ | ⟨c, t⟩
        · exact absurd hs (natToChars_ne_nil _)
        · obtain ⟨d, hd, hc⟩ := natToChars_digits (v.natAbs / 10 ^ p) c
            (hs ▸ List.mem_cons_self c t)
          rw [hs] at hcat
          rw [List.cons_append,
            parseFixedPoint_cons_ne c _ (hc ▸ charOfDigit_ne_dash hd),
            ← List.cons_append, hcat]
          omega
  · intro hp0
    exact fracChars_length p _ (Nat.mod_lt _ hpow) (by omega)

/-- C10 witness: the theorem applied at value -12345 and precision 2 (payload
"-123.45") recovers -12345. -/
theorem kvFormat_roundTrip_witness :
    parseFixedPoint (kvFormat 2 (-12345)) = -12345 := by
  exact (kvFormat_roundTrip (-12345) 2 (by decide) (by decide)).1

end Batgw
